import Mathlib

/-!
# Verification of the pagination / chunking engine of `utils/spotify_elements.py`

This file gives a shallow embedding of the parts of the repository that the
specification talks about:

* the bounded-text lyrics chunker (`SongLyricSelection.callback`),
* the bounded-item album track-list chunker (the `album` element function),
* the `SongLyricsView` pagination state machine (buttons `first`/`prev`/
  `next`/`last`, the lock toggle and `interaction_check`),
* the `AlbumViewPages` constructor and lock toggle,
* the top-songs section of the `artist` element function,
* the `SongView` constructor's mutation of its `item` dictionary.

Python strings are modelled as `List Char` (a Python `str` is a sequence of
code points).  `str.splitlines` is modelled for content whose only
line-boundary character is LF (`'\n'`); the code under scrutiny only ever
creates line boundaries with LF, and CPython's additional boundary
characters (CR, FF, VT, U+2028, ...) play no role in any claim.
`str.strip()` is modelled for the ASCII whitespace characters.
-/

/-- Python `str.isspace`-style test used by `str.strip()`: the ASCII
whitespace characters (space, tab, LF, CR, VT, FF). -/
def pyIsSpace (c : Char) : Bool :=
  c = ' ' || c = '\t' || c = '\n' || c = '\r' || c = '\x0b' || c = '\x0c'

/-- Python `s.splitlines()` for strings whose only line boundary is `'\n'`:
split at each LF, the terminator is dropped, and a trailing LF does not
create a final empty line. -/
def pySplitlines : List Char → List (List Char)
  | [] => []
  | c :: rest =>
    if c = '\n' then [] :: pySplitlines rest
    else
      match pySplitlines rest with
      | [] => [[c]]
      | l :: ls => (c :: l) :: ls

/-- Python `s.split("\n\n")`: split at each non-overlapping occurrence of
two consecutive LFs, scanning left to right.  Always returns at least one
(possibly empty) part; `"".split("\n\n") == [""]`. -/
def pySplit2 : List Char → List (List Char)
  | [] => [[]]
  | [c] => [[c]]
  | c :: c' :: rest =>
    if c = '\n' ∧ c' = '\n' then [] :: pySplit2 rest
    else
      match pySplit2 (c' :: rest) with
      | [] => [[c]]
      | l :: ls => (c :: l) :: ls

/-- Python `s.strip()`: drop whitespace from the front, then from the back. -/
def pyStrip (s : List Char) : List Char :=
  (((s.dropWhile pyIsSpace).reverse).dropWhile pyIsSpace).reverse

/-- Python list/str indexing `xs[i]` with an `int` index: negative indices
count from the back; an index out of range is an `IndexError` (`none`). -/
def pyIdx {α : Type} (xs : List α) (i : Int) : Option α :=
  if 0 ≤ i then xs.get? i.toNat
  else if 0 ≤ (xs.length : Int) + i then xs.get? ((xs.length : Int) + i).toNat
  else none

/-- Joining a list of lines, each terminated by `'\n'` — the shape in which
the lyrics chunker accumulates `current_page` (every write appends
`line + "\n"` or a bare `"\n"`). -/
def unlines (ls : List (List Char)) : List Char :=
  (ls.map (fun l => l ++ ['\n'])).flatten

-- smoke tests for the primitives
example : pySplitlines "ab\ncd".data = ["ab".data, "cd".data] := by decide
example : pySplitlines "ab\n".data = ["ab".data] := by decide
example : pySplitlines "ab\n\n".data = ["ab".data, "".data] := by decide
example : pySplit2 "a\n\nb".data = ["a".data, "b".data] := by decide
example : pySplit2 "\n\n\n".data = ["".data, "\n".data] := by decide
example : pyStrip " a b\n\n".data = "a b".data := by decide
example : pyIdx ["a", "b"] (-1) = some "b" := by decide
example : pyIdx ["a", "b"] 2 = none := by decide

/-!
## Bounded-item chunking: the `album` element function (lines 1073–1111)

```python
pages = []
page = [f"*Released **{item['release_date']}***\n"]
for i, track in enumerate(item["tracks"]["items"]):
    ...
    page.append(f"{i + 1}. **{...}**...")
    # Make new page if current page is full
    if len(page) == 16:
        pages.append("\n".join(page))
        page = [f"*Released **{item['release_date']}***\n"]
# Catch if page is not empty
if page != []:
    pages.append("\n".join(page))
```

A page is modelled as its list of rows (the header row followed by the
formatted track entries); the final `"\n".join` is pure rendering and does
not change how many entries a page holds.  The model is parametric in the
header row and in the already-formatted entry rows, which is all the claims
quantify over. -/

/-- One step of the album page loop: append the formatted entry row, and
flush the page when it holds 16 rows (header plus 15 entries). -/
def albumStep (hdr : String) (st : List (List String) × List String)
    (entry : String) : List (List String) × List String :=
  let page := st.2 ++ [entry]
  if page.length = 16 then (st.1 ++ [page], [hdr]) else (st.1, page)

/-- The album track-list chunker: pages of at most 15 formatted entries
under a repeated header row, with the final `if page != []` append from the
source (note that `page` always contains at least the header row). -/
def albumPages (hdr : String) (entries : List String) : List (List String) :=
  let st := entries.foldl (albumStep hdr) ([], [hdr])
  if st.2 ≠ [] then st.1 ++ [st.2] else st.1

example : albumPages "H" ["a", "b"] = [["H", "a", "b"]] := by decide
example :
    (albumPages "H" (List.replicate 16 "e")).length = 2 := by decide
example :
    (albumPages "H" (List.replicate 15 "e")).getLast? = some ["H"] := by decide

/-!
## Bounded-text chunking: the lyrics chunker (`SongLyricSelection.callback`,
lines 225–244)

```python
raw_lyrics: str = selected_song_data["plainLyrics"]
lyrics_paragraphs = raw_lyrics.split("\n\n")
lyrics = []
current_page = ""
for paragraph in lyrics_paragraphs:
    for line in paragraph.splitlines():
        if (len(current_page)) >= 1024 or len(current_page.splitlines()) >= 30:
            if current_page:
                lyrics.append(current_page.strip())
                current_page = ""
        current_page += f"{line}\n"
    if current_page:
        current_page += "\n"
if current_page:
    lyrics.append(current_page.strip())
```

The state is the pair `(lyrics, current_page)`. -/

/-- The flush test from the source: the accumulated page already holds 1024
or more characters, or 30 or more lines. -/
def lyricsFlushCheck (cp : List Char) : Bool :=
  1024 ≤ cp.length || 30 ≤ (pySplitlines cp).length

/-- Processing one `line` of a paragraph: possibly flush the (stripped)
accumulated page first, then append `line + "\n"`. -/
def lyricsAddLine (st : List (List Char) × List Char) (line : List Char) :
    List (List Char) × List Char :=
  let st2 :=
    if lyricsFlushCheck st.2 then
      if st.2 ≠ [] then (st.1 ++ [pyStrip st.2], ([] : List Char)) else st
    else st
  (st2.1, st2.2 ++ line ++ ['\n'])

/-- End of a paragraph: append the blank separator line if the accumulated
page is non-empty. -/
def lyricsEndPara (st : List (List Char) × List Char) :
    List (List Char) × List Char :=
  if st.2 ≠ [] then (st.1, st.2 ++ ['\n']) else st

/-- Processing one paragraph: each of its lines in order, then the
paragraph separator. -/
def lyricsAddPara (st : List (List Char) × List Char) (para : List Char) :
    List (List Char) × List Char :=
  lyricsEndPara ((pySplitlines para).foldl lyricsAddLine st)

/-- The whole chunker: split the raw lyrics into paragraphs, process them in
order, and append the final stripped page if it is non-empty. -/
def chunkLyrics (raw : List Char) : List (List Char) :=
  let st := (pySplit2 raw).foldl lyricsAddPara ([], [])
  if st.2 ≠ [] then st.1 ++ [pyStrip st.2] else st.1

-- spec.md scenario 1: three short paragraphs give exactly one page
example : chunkLyrics "ab\ncd\n\nef\n\ngh".data = ["ab\ncd\n\nef\n\ngh".data] := by
  decide
-- empty content gives zero pages (no placeholder page exists in the code)
example : chunkLyrics [] = [] := by decide
example : chunkLyrics "\n\n".data = [] := by decide

/-!
## View models

A discord UI child item is modelled by its `custom_id` and its `disabled`
flag (`discord.py`'s `View.children` returns a copy of the internal list,
so the removal loops in the constructors act on a snapshot).  URL-style
buttons without a `custom_id` (`Play on Spotify`, the `Menu` button of
`AlbumViewPages`) are given ids that the source never compares against. -/

structure UIItem where
  cid : String
  disabled : Bool
deriving DecidableEq, Repr

/-- The rejection notices the views can send. -/
inductive Notice where
  /-- The locked notice: "This command is locked. Only the owner can
      control it." (lyrics view) / "The page is locked. Only the owner can
      control it." (album view). -/
  | lockedCtrl : Notice
  /-- The notice "Only the command runner can toggle the page controls
      lock." -/
  | ownerOnlyLock : Notice
deriving DecidableEq, Repr

/-- Python exceptions that the modelled code can raise. -/
inductive PyErr where
  | indexError : PyErr
  | attributeError : String → PyErr
  | keyError : String → PyErr
  | typeError : PyErr
deriving DecidableEq, Repr

/-!
### `SongLyricsView` (lines 267–429)

State: `pages`, `page` (a Python `int`, so modelled as `Int` — the handlers
never clamp it), `locked`, `private`, `creator_id`, and the child items.
The decorated buttons, in class-body order, are `first`, `prev`, `lock`,
`next`, `last`. -/

structure SLVState where
  pages : List String
  page : Int
  locked : Bool
  priv : Bool
  creator_id : Nat
  children : List UIItem
deriving DecidableEq, Repr

/-- The constructor loop of `SongLyricsView.__init__` applied to one child:
disable `first`/`prev`; disable `next`/`last` when there is at most one
page; remove `lock` when the view is private. -/
def slvSetupChild (numPages : Nat) (priv : Bool) (it : UIItem) : Option UIItem :=
  if it.cid = "first" ∨ it.cid = "prev" then some { it with disabled := true }
  else if (it.cid = "next" ∨ it.cid = "last") ∧ numPages ≤ 1 then
    some { it with disabled := true }
  else if it.cid = "lock" ∧ priv then none
  else some it

/-- Constructor `SongLyricsView.__init__`. -/
def slvMk (pages : List String) (priv : Bool) (creator : Nat) : SLVState :=
  { pages := pages
    page := 0
    locked := false
    priv := priv
    creator_id := creator
    children :=
      [⟨"first", false⟩, ⟨"prev", false⟩, ⟨"lock", false⟩,
       ⟨"next", false⟩, ⟨"last", false⟩].filterMap
        (slvSetupChild pages.length priv) }

/-- The per-handler loop `for item in self.children: item.disabled = False;
if item.custom_id in dis: item.disabled = True`. -/
def navMark (dis : List String) (cs : List UIItem) : List UIItem :=
  cs.map fun it =>
    if it.cid ∈ dis then { it with disabled := true }
    else { it with disabled := false }

/-- Handler `first_button`: page to 0, re-enable everything, disable `first`/`prev`. -/
def slvFirst (s : SLVState) : SLVState :=
  { s with page := 0, children := navMark ["first", "prev"] s.children }

/-- Handler `prev_button`: decrement the page unconditionally; if it lands on 0,
disable `first`/`prev`, otherwise enable everything. -/
def slvPrev (s : SLVState) : SLVState :=
  if s.page - 1 = 0 then
    { s with page := s.page - 1, children := navMark ["first", "prev"] s.children }
  else
    { s with page := s.page - 1, children := navMark [] s.children }

/-- Handler `next_button`: increment the page unconditionally; if it lands on the
last index, disable `next`/`last`, otherwise enable everything. -/
def slvNext (s : SLVState) : SLVState :=
  if s.page + 1 = (s.pages.length : Int) - 1 then
    { s with page := s.page + 1, children := navMark ["next", "last"] s.children }
  else
    { s with page := s.page + 1, children := navMark [] s.children }

/-- Handler `last_button`: page to `len(pages) - 1`, disable `next`/`last`. -/
def slvLast (s : SLVState) : SLVState :=
  { s with page := (s.pages.length : Int) - 1
           children := navMark ["next", "last"] s.children }

/-- Handler `lock_button` of `SongLyricsView`: the creator flips the lock (the
button's emoji/colour change is not part of the modelled state); anyone
else gets the owner-only rejection notice and no state change. -/
def slvLockButton (uid : Nat) (s : SLVState) : SLVState × Option Notice :=
  if uid = s.creator_id then ({ s with locked := !s.locked }, none)
  else (s, some Notice.ownerOnlyLock)

/-- The `interaction_check` of `SongLyricsView`: a non-creator is blocked (with
the locked notice) exactly when the view is locked; everyone else passes. -/
def slvCheck (uid : Nat) (s : SLVState) : Bool :=
  !(uid ≠ s.creator_id && s.locked)

/-- In `_create_embed` the embed description is `self.pages[page]`, a Python
indexing operation (negative indices wrap, out-of-range raises). -/
def slvEmbedDesc (s : SLVState) : Except PyErr String :=
  match pyIdx s.pages s.page with
  | some d => Except.ok d
  | none => Except.error PyErr.indexError

/-- The actions a `SongLyricsView` button press can request. -/
inductive SLVAction where
  | first | prev | next | last | toggleLock
deriving DecidableEq, Repr

/-- One inbound interaction: `interaction_check` first; if it passes, run
the button's callback.  Returns the new state and the rejection notice, if
any. -/
def slvApply (uid : Nat) (a : SLVAction) (s : SLVState) :
    SLVState × Option Notice :=
  if slvCheck uid s then
    match a with
    | SLVAction.first => (slvFirst s, none)
    | SLVAction.prev => (slvPrev s, none)
    | SLVAction.next => (slvNext s, none)
    | SLVAction.last => (slvLast s, none)
    | SLVAction.toggleLock => slvLockButton uid s
  else (s, some Notice.lockedCtrl)

/-- Whether a child with the given `custom_id` is present. -/
def hasCtrl (cs : List UIItem) (cid : String) : Bool :=
  cs.any fun it => it.cid = cid

/-- The `disabled` flag of the child with the given `custom_id` (`false`
when no such child exists). -/
def ctrlDisabled (cs : List UIItem) (cid : String) : Bool :=
  match cs.find? (fun it => it.cid = cid) with
  | some it => it.disabled
  | none => false

-- the initial child list for a multi-page non-private view
example :
    (slvMk ["a", "b"] false 7).children =
      [⟨"first", true⟩, ⟨"prev", true⟩, ⟨"lock", false⟩,
       ⟨"next", false⟩, ⟨"last", false⟩] := by decide
-- a single-page view keeps all four navigation buttons, merely disabled
example :
    (slvMk ["a"] true 7).children =
      [⟨"first", true⟩, ⟨"prev", true⟩, ⟨"next", true⟩, ⟨"last", true⟩] := by
  decide

/-!
### `AlbumViewPages` (lines 690–949)

`__init__` stores `op_id` but never assigns `self.user_id`; the decorated
children in class-body order are `first`, `prev`, `lock`, `next`, `last`,
`menu`, and the `Play on Spotify` url button is added afterwards.  With
more than one page it disables `first`/`prev`; otherwise it removes
`first`, `prev`, `lock`, `next` and `last`.  Reading an attribute that was
never assigned raises `AttributeError`, so the unset `user_id` is modelled
as an `Option` that `__init__` leaves at `none`. -/

structure AVPState where
  pages : List String
  page : Int
  locked : Bool
  op_id : Nat
  /-- Field `self.user_id` is referenced by `lock_button` but never assigned. -/
  user_id : Option Nat
  children : List UIItem
deriving DecidableEq, Repr

/-- Constructor `AlbumViewPages.__init__`. -/
def avpMk (pages : List String) (opId : Nat) : AVPState :=
  let base : List UIItem :=
    [⟨"first", false⟩, ⟨"prev", false⟩, ⟨"lock", false⟩,
     ⟨"next", false⟩, ⟨"last", false⟩, ⟨"menu", false⟩]
  let cs :=
    if 1 < pages.length then
      base.map fun it =>
        if it.cid = "first" ∨ it.cid = "prev" then { it with disabled := true }
        else it
    else
      base.filter fun it =>
        ¬(it.cid = "first" ∨ it.cid = "prev" ∨ it.cid = "lock" ∨
          it.cid = "next" ∨ it.cid = "last")
  { pages := pages
    page := 0
    locked := false
    op_id := opId
    user_id := none
    children := cs ++ [⟨"spotify_url", false⟩] }

/-- Handler `lock_button` of `AlbumViewPages`: the guard compares against
`self.user_id`, which `__init__` never assigns, so evaluating the guard
raises `AttributeError` before anything else happens. -/
def avpLockButton (uid : Nat) (s : AVPState) :
    Except PyErr (AVPState × Option Notice) :=
  match s.user_id with
  | none => Except.error (PyErr.attributeError "user_id")
  | some owner =>
    if uid = owner then Except.ok ({ s with locked := !s.locked }, none)
    else Except.ok (s, some Notice.ownerOnlyLock)

example : (avpMk ["a"] 7).children = [⟨"menu", false⟩, ⟨"spotify_url", false⟩] := by
  decide
example :
    avpLockButton 7 (avpMk ["a", "b"] 7) =
      Except.error (PyErr.attributeError "user_id") := rfl

/-!
### `SongView.__init__` (lines 15–40)

```python
seconds, item["duration_ms"] = divmod(item["duration_ms"], 1000)
```

The tuple assignment writes the remainder back into the caller's
dictionary.  A Python dict is modelled as an insertion-ordered association
list with tagged values; updating an existing key keeps its position. -/

inductive PyVal where
  | vint : Int → PyVal
  | vstr : String → PyVal
deriving DecidableEq, Repr

/-- Reading `d[k]`: the value at the first matching key. -/
def dictGet (d : List (String × PyVal)) (k : String) : Option PyVal :=
  match d with
  | [] => none
  | (k', v) :: rest => if k' = k then some v else dictGet rest k

/-- Writing `d[k] = v`: update the existing entry in place, else append. -/
def dictSet (d : List (String × PyVal)) (k : String) (v : PyVal) :
    List (String × PyVal) :=
  match d with
  | [] => [(k, v)]
  | (k', v') :: rest =>
    if k' = k then (k', v) :: rest else (k', v') :: dictSet rest k v

/-- The `item`-mutating part of `SongView.__init__`: read
`item["duration_ms"]` (a `KeyError` if absent, a `TypeError` if not an
int), and write back the `divmod(·, 1000)` remainder. -/
def songViewMutateItem (item : List (String × PyVal)) :
    Except PyErr (List (String × PyVal)) :=
  match dictGet item "duration_ms" with
  | none => Except.error (PyErr.keyError "duration_ms")
  | some (PyVal.vstr _) => Except.error PyErr.typeError
  | some (PyVal.vint ms) =>
    Except.ok (dictSet item "duration_ms" (PyVal.vint (Int.fmod ms 1000)))

example :
    songViewMutateItem [("duration_ms", PyVal.vint 61500), ("name", PyVal.vstr "x")] =
      Except.ok [("duration_ms", PyVal.vint 500), ("name", PyVal.vstr "x")] := by
  rfl

/-!
### The `artist` element function, top-songs section (lines 633–657)

```python
try:
    topsong_string = ""
    for i in range(0, 5):
        ...top_tracks["tracks"][i]...
    embed.add_field(name="Top Songs", value=topsong_string, inline=False)
except IndexError:
    pass
```

`embed.add_field` sits inside the `try`, so an `IndexError` raised by
`top_tracks["tracks"][i]` abandons the whole field.  `escape_markdown` is
modelled as backslash-escaping of the markdown special characters (the
source's regex also rewrites some multi-character quote patterns, which
does not affect which entries appear). -/

structure Track where
  name : String
  artists : List String
deriving DecidableEq, Repr

/-- Model of `discord.utils.escape_markdown`, modelled as per-character escaping. -/
def escapeMd (s : String) : String :=
  String.mk (s.data.flatMap fun c =>
    if c = '\\' ∨ c = '*' ∨ c = '_' ∨ c = '~' ∨ c = '`' ∨ c = '|' then
      ['\\', c]
    else [c])

/-- The formatted line for entry `i`: the artist list is dropped when the
track has exactly one artist. -/
def topsongLine (i : Nat) (t : Track) : String :=
  let artistString := String.intercalate ", " (t.artists.map escapeMd)
  if t.artists.length = 1 then
    toString (i + 1) ++ ". **" ++ escapeMd t.name ++ "**"
  else
    toString (i + 1) ++ ". **" ++ escapeMd t.name ++ "** - " ++ artistString

/-- The `try` body: fold `i = 0..4` over `top_tracks["tracks"][i]`,
raising `IndexError` at the first missing index. -/
def topsongTry (tracks : List Track) : Except PyErr String :=
  (List.range 5).foldlM
    (fun acc i =>
      match tracks.get? i with
      | none => Except.error PyErr.indexError
      | some t =>
        Except.ok (if acc = "" then topsongLine i t
                   else acc ++ "\n" ++ topsongLine i t))
    ""

/-- The Top Songs field of the artist embed: present with the joined lines
when the `try` body succeeds, absent when the `IndexError` was caught. -/
def artistTopSongsField (tracks : List Track) : Option String :=
  match topsongTry tracks with
  | Except.ok s => some s
  | Except.error _ => none

example : artistTopSongsField [⟨"a", ["x"]⟩, ⟨"b", ["y"]⟩, ⟨"c", ["z"]⟩] = none := by
  decide
example :
    (artistTopSongsField (List.replicate 5 ⟨"a", ["x"]⟩)).isSome = true := by
  decide

/-!
## Dictionary lemmas for the `SongView` frame effect
-/

/-- Reading a key after writing it yields the written value. -/
theorem dictGet_dictSet_self (d : List (String × PyVal)) (k : String) (v : PyVal) :
    dictGet (dictSet d k v) k = some v := by
  induction d with
  | nil => simp [dictSet, dictGet]
  | cons p rest ih =>
    obtain ⟨k1, v1⟩ := p
    by_cases h : k1 = k
    · simp [dictSet, dictGet, h]
    · simp [dictSet, dictGet, h, ih]

/-- Writing one key leaves every other key unchanged. -/
theorem dictGet_dictSet_ne (d : List (String × PyVal)) (k k' : String) (v : PyVal)
    (h : k' ≠ k) : dictGet (dictSet d k v) k' = dictGet d k' := by
  induction d with
  | nil => simp [dictSet, dictGet, Ne.symm h]
  | cons p rest ih =>
    obtain ⟨k1, v1⟩ := p
    by_cases hp : k1 = k
    · subst hp
      simp [dictSet, dictGet, Ne.symm h]
    · by_cases hk' : k1 = k'
      · subst hk'
        simp [dictSet, dictGet, hp, h]
      · simp [dictSet, dictGet, hp, hk', ih]

/-!
## Claim C10 — the `SongView.__init__` frame effect
-/

/-- C10 counterexample: for a duration below 1000 ms the written remainder
equals the original value, so the caller's dictionary does *not* differ
after construction — `divmod(500, 1000) == (0, 500)` writes 500 back. -/
theorem songView_duration_under_1000_unchanged :
    songViewMutateItem [("duration_ms", PyVal.vint 500)] =
      Except.ok [("duration_ms", PyVal.vint 500)] := rfl

/-- C10 (amended): constructing a `SongView` writes `duration_ms mod 1000`
back into the caller's dictionary, leaves every other key unchanged, and
makes the dictionary differ from the original exactly when the remainder
differs from the original value (so for durations of at least one second;
for values already in `[0, 1000)` the write is the identity). -/
theorem songView_mutates_duration_ms (item : List (String × PyVal)) (ms : Int)
    (h : dictGet item "duration_ms" = some (PyVal.vint ms)) :
    ∃ item', songViewMutateItem item = Except.ok item' ∧
      dictGet item' "duration_ms" = some (PyVal.vint (Int.fmod ms 1000)) ∧
      (∀ k, k ≠ "duration_ms" → dictGet item' k = dictGet item k) ∧
      (Int.fmod ms 1000 ≠ ms → item' ≠ item) := by
  refine ⟨dictSet item "duration_ms" (PyVal.vint (Int.fmod ms 1000)), ?_, ?_, ?_, ?_⟩
  · simp [songViewMutateItem, h]
  · exact dictGet_dictSet_self item _ _
  · intro k hk
    exact dictGet_dictSet_ne item _ k _ hk
  · intro hne heq
    have h2 := dictGet_dictSet_self item "duration_ms" (PyVal.vint (Int.fmod ms 1000))
    rw [heq, h] at h2
    refine hne ?_
    injection h2 with h3
    injection h3 with h4
    exact h4.symm

/-- C10 witness: a 61.5-second track. -/
theorem songView_mutates_duration_ms_w :
    ∃ item', songViewMutateItem
        [("duration_ms", PyVal.vint 61500), ("name", PyVal.vstr "x")] =
      Except.ok item' ∧
      dictGet item' "duration_ms" = some (PyVal.vint (Int.fmod 61500 1000)) ∧
      (∀ k, k ≠ "duration_ms" →
        dictGet item' k =
          dictGet [("duration_ms", PyVal.vint 61500), ("name", PyVal.vstr "x")] k) ∧
      (Int.fmod 61500 1000 ≠ 61500 →
        item' ≠ [("duration_ms", PyVal.vint 61500), ("name", PyVal.vstr "x")]) :=
  songView_mutates_duration_ms _ 61500 rfl

/-!
## Claim C1 — exact-multiple album chunking
-/

/-- C1: evaluating the album chunker at the failing input.  With exactly 15
entries (an exact multiple of the page capacity) the code emits a second,
trailing page holding only the repeated header and zero entries, because
`page` is reset to `[header]` after a flush and the trailing
`if page != []` test is therefore always true.  The claim's 16-entry
scenario, by contrast, does hold: two pages, the second with exactly one
entry below the header. -/
theorem album_exact_multiple_trailing_header_page :
    albumPages "H" (List.replicate 15 "e") =
      ["H" :: List.replicate 15 "e", ["H"]] ∧
    albumPages "H" (List.replicate 16 "e") =
      ["H" :: List.replicate 15 "e", ["H", "e"]] := by decide

/-!
## Claim C2 — boundary behaviour of `prev_button` / `next_button`
-/

/-- C2 counterexample: on a 2-page view, `prev` at index 0 sets the index
to −1 (not 0), and `next` at index 1 (= N−1) sets it to 2 (not 1); the
subsequent embed render for index 2 raises `IndexError`, while index −1
silently shows the last page via Python negative indexing. -/
theorem prev_next_boundary_counterexample :
    (slvPrev (slvMk ["a", "b"] true 7)).page = -1 ∧
    (slvNext { slvMk ["a", "b"] true 7 with page := 1 }).page = 2 ∧
    slvEmbedDesc (slvNext { slvMk ["a", "b"] true 7 with page := 1 }) =
      Except.error PyErr.indexError ∧
    slvEmbedDesc (slvPrev (slvMk ["a", "b"] true 7)) = Except.ok "b" := by
  refine ⟨rfl, rfl, rfl, rfl⟩

/-- C2 (amended): the `prev`/`next` handlers compute `index − 1` and
`index + 1` unconditionally — there is no `max(0, ·)` / `min(N−1, ·)`
clamp; boundary safety comes only from the buttons being disabled at the
boundaries, so a handler invoked there leaves the index out of range. -/
theorem prev_next_no_clamp (s : SLVState) :
    (slvPrev s).page = s.page - 1 ∧ (slvNext s).page = s.page + 1 := by
  constructor
  · unfold slvPrev
    split <;> rfl
  · unfold slvNext
    split <;> rfl

/-!
## Claim C3 — owner lock toggle in every view class with a lock control
-/

/-- C3: in `SongLyricsView` the creator's lock toggle flips the flag and
completes, but in `AlbumViewPages` the same press raises `AttributeError`
even for the owner, because the guard reads `self.user_id`, which
`__init__` never assigns (it stores the creator as `self.op_id`). -/
theorem owner_lock_toggle_album_view_raises :
    avpLockButton 42 (avpMk ["p1", "p2"] 42) =
      Except.error (PyErr.attributeError "user_id") ∧
    slvLockButton 42 (slvMk ["p1", "p2"] false 42) =
      ({ slvMk ["p1", "p2"] false 42 with locked := true }, none) := by
  refine ⟨rfl, rfl⟩

/-!
## Claim C9 — the artist Top Songs field with fewer than five entries
-/

/-- C9 counterexample: with three available top tracks the `IndexError`
raised at `top_tracks["tracks"][3]` abandons the `try` body before
`embed.add_field`, so the three available entries are *not* rendered — the
whole Top Songs field is omitted. -/
theorem artist_three_tracks_field_dropped :
    artistTopSongsField [⟨"s1", ["a"]⟩, ⟨"s2", ["a"]⟩, ⟨"s3", ["a"]⟩] = none := rfl

/-- C9 (amended): no error condition escapes (the `IndexError` is caught
and suppressed), but when fewer than five top entries exist the partially
built listing is discarded and the Top Songs field is omitted entirely;
the field is rendered only when at least five entries exist. -/
theorem artist_top_songs_field_amended (tracks : List Track) :
    (tracks.length < 5 → artistTopSongsField tracks = none) ∧
    (5 ≤ tracks.length → (artistTopSongsField tracks).isSome = true) := by
  match tracks with
  | [] => exact ⟨fun _ => rfl, fun h => by simp at h⟩
  | [a] => exact ⟨fun _ => rfl, fun h => by simp at h⟩
  | [a, b] => exact ⟨fun _ => rfl, fun h => by simp at h⟩
  | [a, b, c] => exact ⟨fun _ => rfl, fun h => by simp at h⟩
  | [a, b, c, d] => exact ⟨fun _ => rfl, fun h => by simp at h⟩
  | a :: b :: c :: d :: e :: rest =>
    refine ⟨fun h => ?_, fun _ => rfl⟩
    simp only [List.length_cons] at h
    omega

/-- C9 witness: one track gives no field; five tracks give a field. -/
theorem artist_top_songs_field_amended_w :
    artistTopSongsField [⟨"s", ["a"]⟩] = none ∧
    (artistTopSongsField (List.replicate 5 ⟨"s", ["a"]⟩)).isSome = true :=
  ⟨(artist_top_songs_field_amended [⟨"s", ["a"]⟩]).1 (by decide),
   (artist_top_songs_field_amended (List.replicate 5 ⟨"s", ["a"]⟩)).2 (by decide)⟩

/-!
## Claim C6 — navigation controls at N == 1
-/

/-- C6 counterexample: a single-page `SongLyricsView` still *contains* all
four navigation buttons; its constructor only sets their `disabled` flag,
it removes nothing but the lock button (for private views). -/
theorem single_page_nav_present_in_lyrics_view :
    hasCtrl (slvMk ["only"] true 7).children "first" = true ∧
    hasCtrl (slvMk ["only"] true 7).children "prev" = true ∧
    hasCtrl (slvMk ["only"] true 7).children "next" = true ∧
    hasCtrl (slvMk ["only"] true 7).children "last" = true := by decide

/-- C6 (amended): with exactly one page, `AlbumViewPages` removes all four
navigation controls (and the lock control) from its control set, but
`SongLyricsView` keeps all four present and merely marks them disabled. -/
theorem single_page_nav_controls_amended (pages : List String) (priv : Bool)
    (creator opId : Nat) (h : pages.length = 1) :
    (hasCtrl (avpMk pages opId).children "first" = false ∧
     hasCtrl (avpMk pages opId).children "prev" = false ∧
     hasCtrl (avpMk pages opId).children "next" = false ∧
     hasCtrl (avpMk pages opId).children "last" = false ∧
     hasCtrl (avpMk pages opId).children "lock" = false) ∧
    (hasCtrl (slvMk pages priv creator).children "first" = true ∧
     ctrlDisabled (slvMk pages priv creator).children "first" = true ∧
     hasCtrl (slvMk pages priv creator).children "prev" = true ∧
     ctrlDisabled (slvMk pages priv creator).children "prev" = true ∧
     hasCtrl (slvMk pages priv creator).children "next" = true ∧
     ctrlDisabled (slvMk pages priv creator).children "next" = true ∧
     hasCtrl (slvMk pages priv creator).children "last" = true ∧
     ctrlDisabled (slvMk pages priv creator).children "last" = true) := by
  obtain ⟨p, rfl⟩ := List.length_eq_one.mp h
  cases priv <;>
    simp [avpMk, slvMk, slvSetupChild, hasCtrl, ctrlDisabled, List.filterMap]

/-- C6 witness: a concrete one-page album view and lyrics view. -/
theorem single_page_nav_controls_amended_w :
    (hasCtrl (avpMk ["x"] 3).children "first" = false ∧
     hasCtrl (avpMk ["x"] 3).children "prev" = false ∧
     hasCtrl (avpMk ["x"] 3).children "next" = false ∧
     hasCtrl (avpMk ["x"] 3).children "last" = false ∧
     hasCtrl (avpMk ["x"] 3).children "lock" = false) ∧
    (hasCtrl (slvMk ["x"] false 4).children "first" = true ∧
     ctrlDisabled (slvMk ["x"] false 4).children "first" = true ∧
     hasCtrl (slvMk ["x"] false 4).children "prev" = true ∧
     ctrlDisabled (slvMk ["x"] false 4).children "prev" = true ∧
     hasCtrl (slvMk ["x"] false 4).children "next" = true ∧
     ctrlDisabled (slvMk ["x"] false 4).children "next" = true ∧
     hasCtrl (slvMk ["x"] false 4).children "last" = true ∧
     ctrlDisabled (slvMk ["x"] false 4).children "last" = true) :=
  single_page_nav_controls_amended ["x"] false 4 3 rfl

/-!
## Claim C7 — denied attempts are side-effect-free
-/

/-- C7: every denied `SongLyricsView` action is rejected with a notice and
leaves the whole state (index, lock flag, pages, children) unchanged: a
non-creator acting on a locked view is stopped by `interaction_check` with
the locked notice, and a non-creator lock toggle is refused — with the
owner-only notice when the view is unlocked (when it is locked,
`interaction_check` already rejects it with the locked notice). -/
theorem denied_attempts_side_effect_free (uid : Nat) (a : SLVAction)
    (s : SLVState) (hne : uid ≠ s.creator_id) :
    (s.locked = true → slvApply uid a s = (s, some Notice.lockedCtrl)) ∧
    (a = SLVAction.toggleLock →
      (slvApply uid a s).1 = s ∧ (slvApply uid a s).2.isSome = true) ∧
    (a = SLVAction.toggleLock → s.locked = false →
      slvApply uid a s = (s, some Notice.ownerOnlyLock)) := by
  refine ⟨fun hl => ?_, fun ha => ?_, fun ha hl => ?_⟩
  · simp [slvApply, slvCheck, hne, hl]
  · subst ha
    by_cases hl : s.locked
    · simp [slvApply, slvCheck, hne, hl]
    · simp [slvApply, slvCheck, slvLockButton, hne, hl]
  · subst ha
    simp [slvApply, slvCheck, slvLockButton, hne, hl]

/-- C7 witness: a non-creator (user 1, creator 2) on a locked view and on
an unlocked view. -/
theorem denied_attempts_side_effect_free_w :
    slvApply 1 SLVAction.toggleLock { slvMk ["a", "b"] false 2 with locked := true } =
      ({ slvMk ["a", "b"] false 2 with locked := true }, some Notice.lockedCtrl) ∧
    slvApply 1 SLVAction.toggleLock (slvMk ["a", "b"] false 2) =
      (slvMk ["a", "b"] false 2, some Notice.ownerOnlyLock) :=
  ⟨(denied_attempts_side_effect_free 1 SLVAction.toggleLock _ (by decide)).1 rfl,
   (denied_attempts_side_effect_free 1 SLVAction.toggleLock _ (by decide)).2.2 rfl rfl⟩

/-!
## Claim C8 — enablement correctness on reachable states

Reachability: states a `SongLyricsView` can be driven into through the UI,
starting from the constructor and clicking only buttons that are currently
enabled (a disabled discord button cannot be pressed). -/

/-- The canonical child-list shape of a `SongLyricsView`: `first`/`prev`
share one disabled flag, `next`/`last` the other, and the lock button (when
the view is not private) sits between them, never disabled. -/
def slvShape (priv d0 dN : Bool) : List UIItem :=
  [⟨"first", d0⟩, ⟨"prev", d0⟩] ++ (if priv then [] else [⟨"lock", false⟩]) ++
    [⟨"next", dN⟩, ⟨"last", dN⟩]

/-- One successful button press on a `SongLyricsView`; navigation presses
require the button to be enabled. -/
inductive SLVStep : SLVState → SLVState → Prop where
  | first (s : SLVState) :
      ctrlDisabled s.children "first" = false → SLVStep s (slvFirst s)
  | prev (s : SLVState) :
      ctrlDisabled s.children "prev" = false → SLVStep s (slvPrev s)
  | next (s : SLVState) :
      ctrlDisabled s.children "next" = false → SLVStep s (slvNext s)
  | last (s : SLVState) :
      ctrlDisabled s.children "last" = false → SLVStep s (slvLast s)
  | lock (s : SLVState) (uid : Nat) : SLVStep s (slvLockButton uid s).1

/-- States reachable from some constructor call through successful presses. -/
inductive SLVReach : SLVState → Prop where
  | init (pages : List String) (priv : Bool) (creator : Nat) :
      SLVReach (slvMk pages priv creator)
  | step {s s' : SLVState} : SLVReach s → SLVStep s s' → SLVReach s'

/-- The reachability invariant: the page index is in range and the child
list has the canonical shape with flags tied to the boundary tests. -/
def SLVInv (s : SLVState) : Prop :=
  0 ≤ s.page ∧ s.page < (s.pages.length : Int) ∧
  s.children = slvShape s.priv (decide (s.page = 0))
      (decide (s.page = (s.pages.length : Int) - 1))

theorem slvMk_children (pages : List String) (priv : Bool) (creator : Nat) :
    (slvMk pages priv creator).children =
      slvShape priv true (decide (pages.length ≤ 1)) := by
  by_cases h : pages.length ≤ 1 <;> cases priv <;>
    simp [slvMk, slvSetupChild, slvShape, h]

theorem navMark_shape_fp (priv d0 dN : Bool) :
    navMark ["first", "prev"] (slvShape priv d0 dN) = slvShape priv true false := by
  cases priv <;> cases d0 <;> cases dN <;> decide

theorem navMark_shape_nl (priv d0 dN : Bool) :
    navMark ["next", "last"] (slvShape priv d0 dN) = slvShape priv false true := by
  cases priv <;> cases d0 <;> cases dN <;> decide

theorem navMark_shape_all (priv d0 dN : Bool) :
    navMark [] (slvShape priv d0 dN) = slvShape priv false false := by
  cases priv <;> cases d0 <;> cases dN <;> decide

theorem ctrlDisabled_shape (priv d0 dN : Bool) :
    ctrlDisabled (slvShape priv d0 dN) "first" = d0 ∧
    ctrlDisabled (slvShape priv d0 dN) "prev" = d0 ∧
    ctrlDisabled (slvShape priv d0 dN) "next" = dN ∧
    ctrlDisabled (slvShape priv d0 dN) "last" = dN := by
  cases priv <;> cases d0 <;> cases dN <;> decide

theorem slvStep_pages {s s' : SLVState} (h : SLVStep s s') : s'.pages = s.pages := by
  cases h with
  | first hg => rfl
  | prev hg => by_cases hc : s.page - 1 = 0 <;> simp [slvPrev, hc]
  | next hg =>
    by_cases hc : s.page + 1 = (s.pages.length : Int) - 1 <;> simp [slvNext, hc]
  | last hg => rfl
  | lock uid => by_cases hc : uid = s.creator_id <;> simp [slvLockButton, hc]

theorem slv_inv_init (pages : List String) (priv : Bool) (creator : Nat)
    (h : pages ≠ []) : SLVInv (slvMk pages priv creator) := by
  have hpos : 0 < pages.length := List.length_pos.mpr h
  refine ⟨by simp [slvMk], by simp [slvMk]; exact_mod_cast hpos, ?_⟩
  rw [slvMk_children]
  have e0 : (slvMk pages priv creator).page = 0 := rfl
  have ep : (slvMk pages priv creator).pages = pages := rfl
  have epr : (slvMk pages priv creator).priv = priv := rfl
  rw [e0, ep, epr]
  have : (decide (pages.length ≤ 1)) =
      (decide ((0 : Int) = (pages.length : Int) - 1)) := by
    rcases Nat.lt_or_ge 1 pages.length with h1 | h1
    · rw [decide_eq_false (by omega), decide_eq_false (by omega)]
    · rw [decide_eq_true (by omega), decide_eq_true (by omega)]
  rw [this]
  simp

theorem slvShape_flags (p : Bool) {P1 P2 : Prop} [Decidable P1] [Decidable P2]
    (a b : Bool) (h1 : a = decide P1) (h2 : b = decide P2) :
    slvShape p a b = slvShape p (decide P1) (decide P2) := by
  rw [h1, h2]

theorem slv_inv_step {s s' : SLVState} (hs : SLVStep s s') (hinv : SLVInv s) :
    SLVInv s' := by
  obtain ⟨h0, hlt, hch⟩ := hinv
  cases hs with
  | first hg =>
    rw [hch, (ctrlDisabled_shape s.priv _ _).1] at hg
    have hne : ¬s.page = 0 := of_decide_eq_false hg
    refine ⟨?_, ?_, ?_⟩ <;> simp only [slvFirst]
    · omega
    · omega
    · rw [hch, navMark_shape_fp]
      exact slvShape_flags s.priv true false
        ((decide_eq_true trivial).symm) ((decide_eq_false (by omega)).symm)
  | prev hg =>
    rw [hch, (ctrlDisabled_shape s.priv _ _).2.1] at hg
    have hne : ¬s.page = 0 := of_decide_eq_false hg
    by_cases hc : s.page - 1 = 0
    · refine ⟨?_, ?_, ?_⟩ <;> simp only [slvPrev, if_pos hc]
      · omega
      · omega
      · rw [hch, navMark_shape_fp]
        exact slvShape_flags s.priv true false
          ((decide_eq_true hc).symm) ((decide_eq_false (by omega)).symm)
    · refine ⟨?_, ?_, ?_⟩ <;> simp only [slvPrev, if_neg hc]
      · omega
      · omega
      · rw [hch, navMark_shape_all]
        exact slvShape_flags s.priv false false
          ((decide_eq_false hc).symm) ((decide_eq_false (by omega)).symm)
  | next hg =>
    rw [hch, (ctrlDisabled_shape s.priv _ _).2.2.1] at hg
    have hne : ¬s.page = (s.pages.length : Int) - 1 := of_decide_eq_false hg
    by_cases hc : s.page + 1 = (s.pages.length : Int) - 1
    · refine ⟨?_, ?_, ?_⟩ <;> simp only [slvNext, if_pos hc]
      · omega
      · omega
      · rw [hch, navMark_shape_nl]
        exact slvShape_flags s.priv false true
          ((decide_eq_false (by omega)).symm) ((decide_eq_true hc).symm)
    · refine ⟨?_, ?_, ?_⟩ <;> simp only [slvNext, if_neg hc]
      · omega
      · omega
      · rw [hch, navMark_shape_all]
        exact slvShape_flags s.priv false false
          ((decide_eq_false (by omega)).symm) ((decide_eq_false hc).symm)
  | last hg =>
    rw [hch, (ctrlDisabled_shape s.priv _ _).2.2.2] at hg
    have hne : ¬s.page = (s.pages.length : Int) - 1 := of_decide_eq_false hg
    refine ⟨?_, ?_, ?_⟩ <;> simp only [slvLast]
    · omega
    · omega
    · rw [hch, navMark_shape_nl]
      exact slvShape_flags s.priv false true
        ((decide_eq_false (by omega)).symm) ((decide_eq_true trivial).symm)
  | lock uid =>
    by_cases hc : uid = s.creator_id
    · exact ⟨by simp only [slvLockButton, if_pos hc]; exact h0,
        by simp only [slvLockButton, if_pos hc]; exact hlt,
        by simp only [slvLockButton, if_pos hc]; exact hch⟩
    · exact ⟨by simp only [slvLockButton, if_neg hc]; exact h0,
        by simp only [slvLockButton, if_neg hc]; exact hlt,
        by simp only [slvLockButton, if_neg hc]; exact hch⟩

theorem slv_reach_inv {s : SLVState} (h : SLVReach s) (hne : s.pages ≠ []) :
    SLVInv s := by
  induction h with
  | init pages priv creator => exact slv_inv_init pages priv creator hne
  | step hr hs ih =>
    have hp := slvStep_pages hs
    rw [hp] at hne
    exact slv_inv_step hs (ih hne)

/-- C8: on every reachable state of a view with at least two pages, after
every transition `first`/`prev` are disabled exactly when the index is 0
and `next`/`last` exactly when it is N−1. -/
theorem enablement_correct (s : SLVState) (hr : SLVReach s)
    (hN : 2 ≤ s.pages.length) :
    (ctrlDisabled s.children "first" = true ↔ s.page = 0) ∧
    (ctrlDisabled s.children "prev" = true ↔ s.page = 0) ∧
    (ctrlDisabled s.children "next" = true ↔
      s.page = (s.pages.length : Int) - 1) ∧
    (ctrlDisabled s.children "last" = true ↔
      s.page = (s.pages.length : Int) - 1) := by
  have hne : s.pages ≠ [] := by
    intro h
    rw [h] at hN
    simp at hN
  obtain ⟨h0, hlt, hch⟩ := slv_reach_inv hr hne
  rw [hch]
  obtain ⟨e1, e2, e3, e4⟩ := ctrlDisabled_shape s.priv
    (decide (s.page = 0)) (decide (s.page = (s.pages.length : Int) - 1))
  rw [e1, e2, e3, e4]
  simp

/-- C8 witness: the freshly constructed 3-page view. -/
theorem enablement_correct_w :
    (ctrlDisabled (slvMk ["a", "b", "c"] false 5).children "first" = true ↔
      (slvMk ["a", "b", "c"] false 5).page = 0) ∧
    (ctrlDisabled (slvMk ["a", "b", "c"] false 5).children "prev" = true ↔
      (slvMk ["a", "b", "c"] false 5).page = 0) ∧
    (ctrlDisabled (slvMk ["a", "b", "c"] false 5).children "next" = true ↔
      (slvMk ["a", "b", "c"] false 5).page =
        ((slvMk ["a", "b", "c"] false 5).pages.length : Int) - 1) ∧
    (ctrlDisabled (slvMk ["a", "b", "c"] false 5).children "last" = true ↔
      (slvMk ["a", "b", "c"] false 5).page =
        ((slvMk ["a", "b", "c"] false 5).pages.length : Int) - 1) :=
  enablement_correct _ (SLVReach.init ["a", "b", "c"] false 5) (by decide)

/-!
## Lemmas about the Python string primitives
-/

theorem pySplitlines_newline (rest : List Char) :
    pySplitlines ('\n' :: rest) = [] :: pySplitlines rest := by
  simp [pySplitlines]

theorem pySplitlines_other {c : Char} (h : ¬c = '\n') (rest : List Char) :
    pySplitlines (c :: rest) =
      match pySplitlines rest with
      | [] => [[c]]
      | l :: ls => (c :: l) :: ls := by
  rw [pySplitlines]
  simp [h]

theorem pySplitlines_eq_nil_iff (s : List Char) :
    pySplitlines s = [] ↔ s = [] := by
  cases s with
  | nil => simp [pySplitlines]
  | cons c rest =>
    by_cases h : c = '\n'
    · subst h
      rw [pySplitlines_newline]
      simp
    · rw [pySplitlines_other h]
      cases hr : pySplitlines rest <;> simp

theorem length_pySplitlines_cons (c : Char) (u : List Char) :
    (pySplitlines u).length ≤ (pySplitlines (c :: u)).length := by
  by_cases h : c = '\n'
  · subst h
    rw [pySplitlines_newline]
    simp
  · rw [pySplitlines_other h]
    cases hr : pySplitlines u <;> simp

theorem length_pySplitlines_append_left (a u : List Char) :
    (pySplitlines u).length ≤ (pySplitlines (a ++ u)).length := by
  induction a with
  | nil => simp
  | cons c a ih => exact le_trans ih (length_pySplitlines_cons c (a ++ u))

theorem length_pySplitlines_append_right (u b : List Char) :
    (pySplitlines u).length ≤ (pySplitlines (u ++ b)).length := by
  induction u with
  | nil => simp [pySplitlines]
  | cons c u ih =>
    by_cases h : c = '\n'
    · subst h
      rw [List.cons_append, pySplitlines_newline, pySplitlines_newline]
      simpa using ih
    · rw [List.cons_append, pySplitlines_other h, pySplitlines_other h]
      cases hu : pySplitlines u with
      | nil =>
        cases hub : pySplitlines (u ++ b) <;> simp
      | cons l ls =>
        cases hub : pySplitlines (u ++ b) with
        | nil =>
          rw [hu, hub] at ih
          simp at ih
        | cons l2 ls2 =>
          rw [hu, hub] at ih
          simpa using ih

theorem pyStrip_between (s : List Char) : ∃ a b, s = a ++ pyStrip s ++ b := by
  refine ⟨s.takeWhile pyIsSpace,
    ((s.dropWhile pyIsSpace).reverse.takeWhile pyIsSpace).reverse, ?_⟩
  conv_lhs => rw [← List.takeWhile_append_dropWhile pyIsSpace s]
  rw [List.append_assoc]
  congr 1
  conv_lhs => rw [← List.reverse_reverse (s.dropWhile pyIsSpace),
    ← List.takeWhile_append_dropWhile pyIsSpace (s.dropWhile pyIsSpace).reverse,
    List.reverse_append]
  rfl

theorem length_pySplitlines_pyStrip (s : List Char) :
    (pySplitlines (pyStrip s)).length ≤ (pySplitlines s).length := by
  obtain ⟨a, b, h⟩ := pyStrip_between s
  conv_rhs => rw [h]
  calc (pySplitlines (pyStrip s)).length
      ≤ (pySplitlines (pyStrip s ++ b)).length :=
        length_pySplitlines_append_right _ b
    _ ≤ (pySplitlines (a ++ (pyStrip s ++ b))).length :=
        length_pySplitlines_append_left a _
    _ = (pySplitlines (a ++ pyStrip s ++ b)).length := by
        rw [List.append_assoc]

theorem length_pyStrip_le (s : List Char) : (pyStrip s).length ≤ s.length := by
  obtain ⟨a, b, h⟩ := pyStrip_between s
  conv_rhs => rw [h]
  simp
  omega

theorem unlines_append (a b : List (List Char)) :
    unlines (a ++ b) = unlines a ++ unlines b := by
  simp [unlines]

theorem unlines_replicate_nil (k : Nat) :
    unlines (List.replicate k []) = List.replicate k '\n' := by
  induction k with
  | zero => rfl
  | succ k ih =>
    rw [List.replicate_succ, List.replicate_succ]
    show ([] ++ ['\n']) ++ unlines (List.replicate k []) = _
    rw [ih]
    rfl

theorem pySplitlines_line_append (l rest : List Char) :
    '\n' ∉ l → pySplitlines (l ++ '\n' :: rest) = l :: pySplitlines rest := by
  induction l with
  | nil =>
    intro _
    exact pySplitlines_newline rest
  | cons c t ih =>
    intro h
    have hc : ¬c = '\n' := fun hh => h (hh ▸ List.mem_cons_self c t)
    have ht : '\n' ∉ t := fun hh => h (List.mem_cons_of_mem c hh)
    rw [List.cons_append, pySplitlines_other hc, ih ht]

theorem pySplitlines_unlines (ls : List (List Char)) :
    (∀ l ∈ ls, '\n' ∉ l) → pySplitlines (unlines ls) = ls := by
  induction ls with
  | nil => intro _; rfl
  | cons l rest ih =>
    intro h
    have h1 : '\n' ∉ l := h l (List.mem_cons_self l rest)
    have h2 : ∀ x ∈ rest, '\n' ∉ x := fun x hx => h x (List.mem_cons_of_mem l hx)
    show pySplitlines ((l ++ ['\n']) ++ unlines rest) = l :: rest
    rw [List.append_assoc, List.singleton_append,
      pySplitlines_line_append l _ h1, ih h2]

theorem no_newline_of_mem_pySplitlines (s : List Char) :
    ∀ l ∈ pySplitlines s, '\n' ∉ l := by
  induction s with
  | nil =>
    intro l hl
    simp [pySplitlines] at hl
  | cons c rest ih =>
    intro l hl
    by_cases hc : c = '\n'
    · subst hc
      rw [pySplitlines_newline] at hl
      rcases List.mem_cons.mp hl with hl | hl
      · subst hl
        simp
      · exact ih l hl
    · rw [pySplitlines_other hc] at hl
      cases hr : pySplitlines rest with
      | nil =>
        rw [hr] at hl
        simp at hl
        subst hl
        simp [Ne.symm hc]
      | cons l0 ls =>
        rw [hr] at hl
        rcases List.mem_cons.mp hl with hl | hl
        · subst hl
          intro hmem
          rcases List.mem_cons.mp hmem with h1 | h1
          · exact hc h1.symm
          · exact ih l0 (hr ▸ List.mem_cons_self l0 ls) h1
        · exact ih l (hr ▸ List.mem_cons_of_mem l0 hl)

theorem pyStrip_append_space (x r : List Char)
    (h : ∀ c ∈ r, pyIsSpace c = true) : pyStrip (x ++ r) = pyStrip x := by
  unfold pyStrip
  cases hdx : x.dropWhile pyIsSpace with
  | nil =>
    have hx : ∀ c ∈ x, pyIsSpace c = true := List.dropWhile_eq_nil_iff.mp hdx
    have hxr : (x ++ r).dropWhile pyIsSpace = [] := by
      rw [List.dropWhile_append_of_pos hx, List.dropWhile_eq_nil_iff.mpr h]
    rw [hxr]
  | cons d ds =>
    have h2 : (x ++ r).dropWhile pyIsSpace = x.dropWhile pyIsSpace ++ r := by
      rw [List.dropWhile_append, hdx]
      simp
    rw [h2, hdx, List.reverse_append,
      List.dropWhile_append_of_pos (by intro c hc; exact h c (List.mem_reverse.mp hc))]

/-!
## The chunking invariant (claim C4)
-/

/-- The bounds every emitted lyrics page satisfies: at most 30 lines, and
at most `1024 + M` characters when every input line has at most `M`
characters. -/
def PageOK (M : Nat) (p : List Char) : Prop :=
  (pySplitlines p).length ≤ 30 ∧ p.length ≤ 1024 + M

/-- Shape invariant of the accumulated `current_page`: a block of at most
30 newline-terminated lines (no line containing a newline, block size at
most `1024 + M`) followed by trailing blank separator newlines. -/
def CPOK (M : Nat) (cp : List Char) : Prop :=
  ∃ core k, cp = unlines core ++ List.replicate k '\n' ∧
    (∀ l ∈ core, '\n' ∉ l) ∧ core.length ≤ 30 ∧
    (unlines core).length ≤ 1024 + M

/-- The whole chunker state invariant. -/
def ChunkInv (M : Nat) (st : List (List Char) × List Char) : Prop :=
  (∀ p ∈ st.1, PageOK M p) ∧ CPOK M st.2

theorem cpok_strip {M : Nat} {cp : List Char} (h : CPOK M cp) :
    PageOK M (pyStrip cp) := by
  obtain ⟨core, k, hcp, hfree, hcore, hsize⟩ := h
  have hs : pyStrip cp = pyStrip (unlines core) := by
    rw [hcp]
    exact pyStrip_append_space _ _ (by
      intro c hc
      rw [List.eq_of_mem_replicate hc]
      rfl)
  constructor
  · rw [hs]
    calc (pySplitlines (pyStrip (unlines core))).length
        ≤ (pySplitlines (unlines core)).length :=
          length_pySplitlines_pyStrip _
      _ = core.length := by rw [pySplitlines_unlines core hfree]
      _ ≤ 30 := hcore
  · rw [hs]
    exact le_trans (length_pyStrip_le _) hsize

theorem cpok_counts {core : List (List Char)} {k : Nat}
    (hfree : ∀ l ∈ core, '\n' ∉ l) :
    (unlines core ++ List.replicate k '\n').length =
      (unlines core).length + k ∧
    (pySplitlines (unlines core ++ List.replicate k '\n')).length =
      core.length + k := by
  constructor
  · simp
  · rw [← unlines_replicate_nil, ← unlines_append,
      pySplitlines_unlines (core ++ List.replicate k [])]
    · simp
    · intro l hl
      rcases List.mem_append.mp hl with hl | hl
      · exact hfree l hl
      · rw [List.eq_of_mem_replicate hl]
        simp

theorem unlines_singleton (l : List Char) : unlines [l] = l ++ ['\n'] := by
  simp [unlines]

theorem chunkInv_addLine {M : Nat} {st : List (List Char) × List Char}
    {line : List Char} (hinv : ChunkInv M st) (hfree : '\n' ∉ line)
    (hlen : line.length ≤ M) : ChunkInv M (lyricsAddLine st line) := by
  obtain ⟨hpages, hcp⟩ := hinv
  by_cases hchk : lyricsFlushCheck st.2 = true
  · -- flush first, then append the line to an empty accumulator
    have hne : st.2 ≠ [] := by
      intro hnil
      rw [hnil] at hchk
      simp [lyricsFlushCheck, pySplitlines] at hchk
    have hout : lyricsAddLine st line =
        (st.1 ++ [pyStrip st.2], line ++ ['\n']) := by
      simp [lyricsAddLine, hchk, hne]
    rw [hout]
    refine ⟨?_, [line], 0, by simp [unlines], ?_, by simp, ?_⟩
    · intro p hp
      rcases List.mem_append.mp hp with hp | hp
      · exact hpages p hp
      · rw [List.mem_singleton.mp hp]
        exact cpok_strip hcp
    · intro l hl
      rw [List.mem_singleton.mp hl]
      exact hfree
    · simp [unlines]
      omega
  · -- no flush: append the line to the accumulator
    have hout : lyricsAddLine st line = (st.1, st.2 ++ line ++ ['\n']) := by
      simp [lyricsAddLine, hchk]
    rw [hout]
    obtain ⟨core, k, hcp2, hfr, hcore, hsize⟩ := hcp
    have hcounts := cpok_counts (k := k) hfr
    have hchk2 : ¬(1024 ≤ st.2.length) ∧ ¬(30 ≤ (pySplitlines st.2).length) := by
      simp [lyricsFlushCheck] at hchk
      omega
    have hclen : (unlines core).length + k ≤ 1023 := by
      rw [hcp2] at hchk2
      omega
    have hccount : core.length + k ≤ 29 := by
      rw [hcp2] at hchk2
      omega
    refine ⟨hpages, core ++ List.replicate k [] ++ [line], 0, ?_, ?_, ?_, ?_⟩
    · rw [unlines_append, unlines_append, unlines_replicate_nil, hcp2]
      simp [unlines]
    · intro l hl
      rcases List.mem_append.mp hl with hl | hl
      · rcases List.mem_append.mp hl with hl | hl
        · exact hfr l hl
        · rw [List.eq_of_mem_replicate hl]
          simp
      · rw [List.mem_singleton.mp hl]
        exact hfree
    · simp
      omega
    · rw [unlines_append, unlines_append, unlines_replicate_nil,
        unlines_singleton]
      simp
      omega

theorem chunkInv_endPara {M : Nat} {st : List (List Char) × List Char}
    (hinv : ChunkInv M st) : ChunkInv M (lyricsEndPara st) := by
  obtain ⟨hpages, core, k, hcp, hfr, hcore, hsize⟩ := hinv
  by_cases hne : st.2 ≠ []
  · have hout : lyricsEndPara st = (st.1, st.2 ++ ['\n']) := by
      simp [lyricsEndPara, hne]
    rw [hout]
    refine ⟨hpages, core, k + 1, ?_, hfr, hcore, hsize⟩
    rw [hcp, List.append_assoc, List.replicate_succ' k]
  · have hout : lyricsEndPara st = st := by
      simp [lyricsEndPara, not_not.mp hne]
    rw [hout]
    exact ⟨hpages, core, k, hcp, hfr, hcore, hsize⟩

theorem chunkInv_foldLines {M : Nat} (lines : List (List Char)) :
    ∀ st, ChunkInv M st → (∀ l ∈ lines, '\n' ∉ l ∧ l.length ≤ M) →
      ChunkInv M (lines.foldl lyricsAddLine st) := by
  induction lines with
  | nil => intro st hinv _; exact hinv
  | cons l rest ih =>
    intro st hinv h
    rw [List.foldl_cons]
    exact ih _ (chunkInv_addLine hinv (h l (List.mem_cons_self l rest)).1
        (h l (List.mem_cons_self l rest)).2)
      (fun x hx => h x (List.mem_cons_of_mem l hx))

theorem chunkInv_addPara {M : Nat} {st : List (List Char) × List Char}
    (para : List Char) (hinv : ChunkInv M st)
    (hM : ∀ l ∈ pySplitlines para, l.length ≤ M) :
    ChunkInv M (lyricsAddPara st para) :=
  chunkInv_endPara (chunkInv_foldLines _ st hinv
    (fun l hl => ⟨no_newline_of_mem_pySplitlines para l hl, hM l hl⟩))

theorem chunkInv_foldParas {M : Nat} (paras : List (List Char)) :
    ∀ st, ChunkInv M st →
      (∀ para ∈ paras, ∀ l ∈ pySplitlines para, l.length ≤ M) →
      ChunkInv M (paras.foldl lyricsAddPara st) := by
  induction paras with
  | nil => intro st hinv _; exact hinv
  | cons q rest ih =>
    intro st hinv h
    rw [List.foldl_cons]
    exact ih _ (chunkInv_addPara q hinv (h q (List.mem_cons_self q rest)))
      (fun x hx => h x (List.mem_cons_of_mem q hx))

theorem chunkLyrics_pageOK (raw : List Char) (M : Nat)
    (hM : ∀ para ∈ pySplit2 raw, ∀ l ∈ pySplitlines para, l.length ≤ M) :
    ∀ p ∈ chunkLyrics raw, PageOK M p := by
  have base : ChunkInv M ([], []) := by
    refine ⟨by simp, [], 0, by simp [unlines], by simp, by simp, by simp [unlines]⟩
  have hfold := chunkInv_foldParas (pySplit2 raw) ([], []) base hM
  intro p hp
  unfold chunkLyrics at hp
  by_cases hne : ((pySplit2 raw).foldl lyricsAddPara ([], [])).2 ≠ []
  · rw [if_pos hne] at hp
    rcases List.mem_append.mp hp with hp | hp
    · exact hfold.1 p hp
    · rw [List.mem_singleton.mp hp]
      exact cpok_strip hfold.2
  · rw [if_neg hne] at hp
    exact hfold.1 p hp

theorem albumFold_inv (hdr : String) (entries : List String) :
    ∀ st : List (List String) × List String,
      (∀ p ∈ st.1, p.head? = some hdr ∧ p.tail.length ≤ 15) →
      st.2.head? = some hdr → st.2.length ≤ 15 →
      (∀ p ∈ (entries.foldl (albumStep hdr) st).1,
        p.head? = some hdr ∧ p.tail.length ≤ 15) ∧
      (entries.foldl (albumStep hdr) st).2.head? = some hdr ∧
      (entries.foldl (albumStep hdr) st).2.length ≤ 15 := by
  induction entries with
  | nil => intro st h1 h2 h3; exact ⟨h1, h2, h3⟩
  | cons e rest ih =>
    intro st h1 h2 h3
    rw [List.foldl_cons]
    obtain ⟨hd, tl, hst2⟩ : ∃ hd tl, st.2 = hd :: tl := by
      cases hs : st.2 with
      | nil => rw [hs] at h2; simp at h2
      | cons hd tl => exact ⟨hd, tl, rfl⟩
    have hhd : hd = hdr := by
      rw [hst2] at h2
      simpa using h2
    by_cases hc : (st.2 ++ [e]).length = 16
    · have hstep : albumStep hdr st e = (st.1 ++ [st.2 ++ [e]], [hdr]) := by
        simp [albumStep, hc]
      rw [hstep]
      apply ih
      · intro p hp
        rcases List.mem_append.mp hp with hp | hp
        · exact h1 p hp
        · rw [List.mem_singleton.mp hp]
          constructor
          · rw [hst2, hhd]
            simp
          · have : (st.2 ++ [e]).tail.length = 15 := by
              rw [hst2] at hc ⊢
              simp at hc ⊢
              omega
            omega
      · simp
      · simp
    · have hstep : albumStep hdr st e = (st.1, st.2 ++ [e]) := by
        simp only [albumStep]
        rw [if_neg hc]
      rw [hstep]
      apply ih
      · exact h1
      · rw [hst2, hhd]
        simp
      · simp at hc ⊢
        omega

theorem albumPages_bound (hdr : String) (entries : List String) :
    ∀ p ∈ albumPages hdr entries, p.head? = some hdr ∧ p.tail.length ≤ 15 := by
  have h := albumFold_inv hdr entries ([], [hdr]) (by simp) (by simp) (by simp)
  intro p hp
  unfold albumPages at hp
  by_cases hne : (entries.foldl (albumStep hdr) ([], [hdr])).2 ≠ []
  · rw [if_pos hne] at hp
    rcases List.mem_append.mp hp with hp | hp
    · exact h.1 p hp
    · rw [List.mem_singleton.mp hp]
      refine ⟨h.2.1, ?_⟩
      have h15 := h.2.2
      rw [List.length_tail]
      omega
  · rw [if_neg hne] at hp
    exact h.1 p hp

/-!
## Claim C4 — the chunking bounds
-/

/-- C4 counterexample: a single 1030-character line becomes a single page
of 1030 characters — the 1024-character bound fails, because the length
check runs *before* a line is appended, so a long line overshoots the
threshold. -/
theorem pySplit2_cons2 {c c' : Char} (h : ¬(c = '\n' ∧ c' = '\n'))
    (rest : List Char) :
    pySplit2 (c :: c' :: rest) =
      match pySplit2 (c' :: rest) with
      | [] => [[c]]
      | l :: ls => (c :: l) :: ls := by
  rw [pySplit2]
  simp [h]

theorem pySplit2_no_newline (s : List Char) :
    '\n' ∉ s → pySplit2 s = [s] := by
  induction s with
  | nil => intro _; rfl
  | cons c t ih =>
    intro h
    have hc : c ≠ '\n' := fun hh => h (hh ▸ List.mem_cons_self c t)
    cases t with
    | nil => rfl
    | cons c' rest =>
      rw [pySplit2_cons2 (fun hh => hc hh.1)]
      rw [ih (fun hh => h (List.mem_cons_of_mem c hh))]

theorem pySplitlines_no_newline (s : List Char) :
    '\n' ∉ s → s ≠ [] → pySplitlines s = [s] := by
  induction s with
  | nil => intro _ h; exact absurd rfl h
  | cons c t ih =>
    intro h _
    have hc : ¬c = '\n' := fun hh => h (hh ▸ List.mem_cons_self c t)
    rw [pySplitlines_other hc]
    cases ht : t with
    | nil => rfl
    | cons c' rest =>
      rw [← ht, ih (fun hh => h (List.mem_cons_of_mem c hh)) (ht ▸ List.cons_ne_nil c' rest)]

theorem chunkLyrics_single_line (line : List Char) (hnl : '\n' ∉ line)
    (hne : line ≠ []) :
    chunkLyrics line = [pyStrip (line ++ ['\n', '\n'])] := by
  unfold chunkLyrics
  rw [pySplit2_no_newline line hnl, List.foldl_cons, List.foldl_nil]
  unfold lyricsAddPara
  rw [pySplitlines_no_newline line hnl hne, List.foldl_cons, List.foldl_nil]
  have h1 : lyricsAddLine ([], []) line = ([], line ++ ['\n']) := by
    simp [lyricsAddLine, lyricsFlushCheck, pySplitlines]
  rw [h1]
  have h2 : lyricsEndPara ([], line ++ ['\n']) = ([], line ++ ['\n', '\n']) := by
    simp [lyricsEndPara]
  rw [h2]
  rw [if_pos (by simp : (([], line ++ ['\n', '\n']) :
    List (List Char) × List Char).2 ≠ [])]
  simp

/-- C4 counterexample: a single 1030-character line becomes a single page
of 1030 characters — the 1024-character bound fails, because the length
check runs *before* a line is appended, so a long line overshoots the
threshold. -/
theorem chunk_page_over_1024 :
    ∃ p ∈ chunkLyrics (List.replicate 1030 'a'), 1024 < p.length := by
  have hmem : '\n' ∉ List.replicate 1030 'a' := by
    intro h
    have := List.eq_of_mem_replicate h
    simp at this
  have hrep_ne : List.replicate 1030 'a' ≠ [] := by
    intro h
    have h2 := congrArg List.length h
    rw [List.length_replicate, List.length_nil] at h2
    omega
  rw [chunkLyrics_single_line _ hmem hrep_ne]
  refine ⟨pyStrip (List.replicate 1030 'a' ++ ['\n', '\n']),
    List.mem_singleton_self _, ?_⟩
  have hs : pyStrip (List.replicate 1030 'a' ++ ['\n', '\n']) =
      List.replicate 1030 'a' := by
    have he : pyStrip (List.replicate 1030 'a' ++ ['\n', '\n']) =
        pyStrip (List.replicate 1030 'a') := by
      refine pyStrip_append_space _ _ ?_
      intro c hc
      rcases List.mem_cons.mp hc with h | h
      · rw [h]; rfl
      · rw [List.mem_singleton.mp h]; rfl
    have hd : List.dropWhile pyIsSpace (List.replicate 1030 'a') =
        List.replicate 1030 'a' := by
      rw [show (1030 : Nat) = 1029 + 1 from rfl, List.replicate_succ]
      exact List.dropWhile_cons_of_neg (by decide)
    rw [he]
    unfold pyStrip
    rw [hd, List.reverse_replicate, hd, List.reverse_replicate]
  rw [hs, List.length_replicate]
  omega

/-- C4 (amended): under the bounded-text policy every page has at most 30
lines and at most `1024 + M` characters, where `M` bounds the length of
the individual lines of the content (the unconditional 1024-character
bound fails, since the length check runs before each line is appended);
under the bounded-item policy every page is the header row followed by at
most 15 entries. -/
theorem chunk_bounds_amended :
    (∀ (raw : List Char) (M : Nat),
      (∀ para ∈ pySplit2 raw, ∀ l ∈ pySplitlines para, l.length ≤ M) →
      ∀ p ∈ chunkLyrics raw,
        (pySplitlines p).length ≤ 30 ∧ p.length ≤ 1024 + M) ∧
    (∀ (hdr : String) (entries : List String),
      ∀ p ∈ albumPages hdr entries,
        p.head? = some hdr ∧ p.tail.length ≤ 15) :=
  ⟨fun raw M hM p hp => chunkLyrics_pageOK raw M hM p hp,
   fun hdr entries p hp => albumPages_bound hdr entries p hp⟩

/-- C4 witness: a small two-line lyric and a one-track album. -/
theorem chunk_bounds_amended_w :
    ((pySplitlines (pyStrip "ab\ncd\n\n".data)).length ≤ 30 ∧
      (pyStrip "ab\ncd\n\n".data).length ≤ 1024 + 2) ∧
    (["H", "e"].head? = some "H" ∧ ["H", "e"].tail.length ≤ 15) :=
  ⟨chunk_bounds_amended.1 "ab\ncd".data 2 (by decide)
      (pyStrip "ab\ncd\n\n".data) (by decide),
   chunk_bounds_amended.2 "H" ["e"] ["H", "e"] (by decide)⟩

/-!
## Claim C5 — chunker totality / the missing placeholder page
-/

theorem lyricsAddLine_cp_ne (st : List (List Char) × List Char)
    (line : List Char) : (lyricsAddLine st line).2 ≠ [] := by
  unfold lyricsAddLine
  simp

theorem foldl_addLine_cp_ne (lines : List (List Char)) :
    ∀ st, lines ≠ [] → (lines.foldl lyricsAddLine st).2 ≠ [] := by
  induction lines with
  | nil => intro st h; exact absurd rfl h
  | cons l rest ih =>
    intro st _
    rw [List.foldl_cons]
    by_cases hr : rest = []
    · subst hr
      exact lyricsAddLine_cp_ne st l
    · exact ih _ hr

theorem lyricsEndPara_pages (st : List (List Char) × List Char) :
    (lyricsEndPara st).1 = st.1 := by
  unfold lyricsEndPara
  split <;> rfl

theorem lyricsEndPara_cp_ne {st : List (List Char) × List Char}
    (h : st.2 ≠ []) : (lyricsEndPara st).2 ≠ [] := by
  simp [lyricsEndPara, h]

theorem lyricsEndPara_of_nil {st : List (List Char) × List Char}
    (h : st.2 = []) : lyricsEndPara st = st := by
  simp [lyricsEndPara, h]

/-- The chunker state already holds some output: a finished page or a
non-empty accumulator. -/
def NDState (st : List (List Char) × List Char) : Prop :=
  st.1 ≠ [] ∨ st.2 ≠ []

theorem ND_addPara {st : List (List Char) × List Char} (para : List Char)
    (h : NDState st) : NDState (lyricsAddPara st para) := by
  unfold lyricsAddPara
  by_cases hp : pySplitlines para = []
  · rw [hp, List.foldl_nil]
    rcases h with h | h
    · left
      rw [lyricsEndPara_pages]
      exact h
    · right
      exact lyricsEndPara_cp_ne h
  · right
    exact lyricsEndPara_cp_ne (foldl_addLine_cp_ne _ st hp)

theorem addPara_nonempty_cp (st : List (List Char) × List Char)
    (para : List Char) (h : para ≠ []) : NDState (lyricsAddPara st para) := by
  right
  exact lyricsEndPara_cp_ne (foldl_addLine_cp_ne _ st
    (fun hh => h ((pySplitlines_eq_nil_iff para).mp hh)))

theorem ND_foldParas (paras : List (List Char)) :
    ∀ st, NDState st → NDState (paras.foldl lyricsAddPara st) := by
  induction paras with
  | nil => intro st h; exact h
  | cons q rest ih =>
    intro st h
    rw [List.foldl_cons]
    exact ih _ (ND_addPara q h)

theorem all_empty_fold (paras : List (List Char))
    (h : ∀ p ∈ paras, p = []) :
    paras.foldl lyricsAddPara ([], []) = ([], []) := by
  induction paras with
  | nil => rfl
  | cons q rest ih =>
    have hq : q = [] := h q (List.mem_cons_self q rest)
    rw [List.foldl_cons, hq]
    have hstep : lyricsAddPara ([], []) [] = ([], []) := by
      unfold lyricsAddPara
      rw [show pySplitlines [] = [] from rfl, List.foldl_nil]
      exact lyricsEndPara_of_nil rfl
    rw [hstep]
    exact ih (fun x hx => h x (List.mem_cons_of_mem q hx))

/-- C5 counterexample: chunking the empty string yields *zero* pages (there
is no placeholder page anywhere in the code), and the non-empty content
`"\n\n"` — a bare paragraph separator — also yields zero pages. -/
theorem chunk_empty_no_placeholder :
    chunkLyrics [] = [] ∧ chunkLyrics "\n\n".data = [] ∧ "\n\n".data ≠ [] := by
  refine ⟨rfl, by decide, by decide⟩

/-- C5 (amended): the chunker has no placeholder page: it returns the empty
page sequence exactly when every paragraph of the content is empty — in
particular for empty content, and also for non-empty content consisting
solely of `"\n\n"` separators; any content with a non-empty paragraph
yields a non-empty page sequence. -/
theorem chunkLyrics_empty_iff (raw : List Char) :
    chunkLyrics raw = [] ↔ ∀ para ∈ pySplit2 raw, para = [] := by
  constructor
  · intro h
    by_contra hcon
    push_neg at hcon
    obtain ⟨para, hmem, hne⟩ := hcon
    obtain ⟨pre, post, hsplit⟩ := List.append_of_mem hmem
    have hnd : NDState ((pySplit2 raw).foldl lyricsAddPara ([], [])) := by
      rw [hsplit, List.foldl_append, List.foldl_cons]
      exact ND_foldParas post _ (addPara_nonempty_cp _ para hne)
    unfold chunkLyrics at h
    by_cases hc : ((pySplit2 raw).foldl lyricsAddPara ([], [])).2 ≠ []
    · rw [if_pos hc] at h
      simp at h
    · rw [if_neg hc] at h
      rcases hnd with hnd | hnd
      · exact hnd h
      · exact hc hnd
  · intro h
    unfold chunkLyrics
    rw [all_empty_fold _ h]
    simp

/-- C5 witness: the characterization applied to a concrete lyric. -/
theorem chunkLyrics_empty_iff_w :
    chunkLyrics "ab".data = [] ↔ ∀ para ∈ pySplit2 "ab".data, para = [] :=
  chunkLyrics_empty_iff "ab".data
